import Mathlib

/-!
Verification of the coupled-dipole electrodynamics engine of the
misloc_package repository (src/calc/coupled_dipoles.py).

The development shallowly embeds the numerical code over `ℝ` and `ℂ`:
each Python function becomes a Lean definition of the same name, arrays
are embedded per sample (3-vectors as `Fin 3 → ℂ`, 3×3 tensors as
`Matrix (Fin 3) (Fin 3) ℂ`), and code that can raise (unbound local
branches) returns `Option`.
-/

noncomputable section

namespace CoupledDipoles

open Matrix Finset

/-- Modelled from the spec: the physical constants table
(`physical_constants.yaml`, loaded by the module prologue, is not part of
the sources) supplies the speed of light `c`, the reduced Planck constant
`hbar` and the length-unit scale factor `nm`; the spec directs that these
be treated as an immutable context passed into every call. -/
structure Consts where
  c : ℝ
  hbar : ℝ
  nm : ℝ

/-- The closed set of rotation axes accepted by `rotation_by`
(the source dispatches on the strings "x", "y", "z"). -/
inductive RotAxis
  | x
  | y
  | z

/-- Embedding of `rotation_by(by_angle, rot_axis)`: the active rotation
matrix about the chosen principal axis, for a single (scalar) angle. -/
def rotation_by (by_angle : ℝ) (rot_axis : RotAxis) : Matrix (Fin 3) (Fin 3) ℝ :=
  match rot_axis with
  | RotAxis.x =>
      !![1, 0, 0;
         0, Real.cos by_angle, -(Real.sin by_angle);
         0, Real.sin by_angle, Real.cos by_angle]
  | RotAxis.y =>
      !![Real.cos by_angle, 0, Real.sin by_angle;
         0, 1, 0;
         -(Real.sin by_angle), 0, Real.cos by_angle]
  | RotAxis.z =>
      !![Real.cos by_angle, -(Real.sin by_angle), 0;
         Real.sin by_angle, Real.cos by_angle, 0;
         0, 0, 1]

/-- `rotation_by` viewed as a complex matrix (numpy silently upcasts the
real rotation matrices when they multiply complex tensors). -/
def rotation_byC (by_angle : ℝ) (rot_axis : RotAxis) : Matrix (Fin 3) (Fin 3) ℂ :=
  (rotation_by by_angle rot_axis).map (algebraMap ℝ ℂ)

/-- Embedding of `vec_mag(row_vecs)` for a single row vector:
`np.linalg.norm` of a real 3-vector. -/
def vec_mag (row_vecs : Fin 3 → ℝ) : ℝ :=
  Real.sqrt (∑ i, row_vecs i ^ 2)

/-- Embedding of the dipole relay tensor `G(drive_hbar_w, d_col, n_b)`
for a single separation vector:
`exp(i k d) * ((3 n̂⊗n̂ - I)(1/d³ - i k/d²) - (n̂⊗n̂ - I)(k²/d))`
with `d = |d_col|`, `n̂ = d_col/d`, `w = drive_hbar_w/hbar`, `k = w n_b/c`. -/
def G (ct : Consts) (drive_hbar_w : ℝ) (d_col : Fin 3 → ℝ) (n_b : ℝ) :
    Matrix (Fin 3) (Fin 3) ℂ :=
  let d : ℝ := vec_mag d_col
  let n_hat : Fin 3 → ℝ := fun i => d_col i / d
  let w : ℝ := drive_hbar_w / ct.hbar
  let k : ℝ := w * n_b / ct.c
  Matrix.of fun i j =>
    Complex.exp (Complex.I * (k : ℂ) * (d : ℂ)) *
      (((3 * (n_hat i * n_hat j) - if i = j then (1 : ℝ) else 0 : ℝ) : ℂ) *
          (1 / (d : ℂ) ^ 3 - Complex.I * (k : ℂ) / (d : ℂ) ^ 2)
        -
        (((n_hat i * n_hat j) - if i = j then (1 : ℝ) else 0 : ℝ) : ℂ) *
          ((k : ℂ) ^ 2 / (d : ℂ)))

/-- The Green tensor exactly as the spec writes it, as a function of the
unit separation direction `n̂`, the separation distance `r` and the
wavenumber `k`:
`exp(i k r) [(3 n̂⊗n̂ - I)(1/r³ - i k/r²) - (n̂⊗n̂ - I)(k²/r)]`. -/
def Gspec (n_hat : Fin 3 → ℝ) (r k : ℝ) : Matrix (Fin 3) (Fin 3) ℂ :=
  Matrix.of fun i j =>
    Complex.exp (Complex.I * (k : ℂ) * (r : ℂ)) *
      (((3 * (n_hat i * n_hat j) - if i = j then (1 : ℝ) else 0 : ℝ) : ℂ) *
          (1 / (r : ℂ) ^ 3 - Complex.I * (k : ℂ) / (r : ℂ) ^ 2)
        -
        (((n_hat i * n_hat j) - if i = j then (1 : ℝ) else 0 : ℝ) : ℂ) *
          ((k : ℂ) ^ 2 / (r : ℂ)))

/-- A concrete constants context (`c = hbar = nm = 1`) used for the
concrete-input theorems. -/
def ctOne : Consts := ⟨1, 1, 1⟩

/-- The driving plane-wave field used throughout the solvers:
`rotation_by(E_d_angle) @ np.array([1,0,0]) * drive_amp`. -/
def drive_field (E_d_phi : ℝ) (drive_amp : ℂ) : Fin 3 → ℂ :=
  (rotation_byC E_d_phi RotAxis.z).mulVec fun j => if j = 0 then drive_amp else 0

/-- The conjugation `rotation_by(-phi) @ alpha_diag @ rotation_by(phi)`
taking a principal-frame tensor to the lab frame, as written at each call
site of the source. -/
def lab_frame (phi : ℝ) (alpha_diag : Matrix (Fin 3) (Fin 3) ℂ) :
    Matrix (Fin 3) (Fin 3) ℂ :=
  rotation_byC (-phi) RotAxis.z * alpha_diag * rotation_byC phi RotAxis.z

/-- The body of `coupled_dip_mags_both_driven` with the already-resolved
drive angle and the coupling tensor `G_d` abstracted out (the wrapper
below instantiates `G_d := G(drive_hbar_w, d_col, n_b)`; abstracting it
lets the `G → 0` limit be stated as the spec demands). -/
def coupled_dip_mags_core (mol_angle plas_angle E_d_phi : ℝ)
    (G_d : Matrix (Fin 3) (Fin 3) ℂ)
    (alpha0_diag alpha1_diag : Matrix (Fin 3) (Fin 3) ℂ)
    (drive_amp : ℂ) : (Fin 3 → ℂ) × (Fin 3 → ℂ) :=
  let E_drive := drive_field E_d_phi drive_amp
  let alpha_0 := lab_frame mol_angle alpha0_diag
  let alpha_1 := lab_frame plas_angle alpha1_diag
  let geometric_coupling_01 := (1 - alpha_0 * G_d * alpha_1 * G_d)⁻¹
  let p0 := (geometric_coupling_01 * (alpha_0 * (1 + G_d * alpha_1))).mulVec E_drive
  let p1 := (geometric_coupling_01 * (alpha_1 * (1 + G_d * alpha_0))).mulVec E_drive
  (p0, p1)

/-- Embedding of `coupled_dip_mags_both_driven` (single sample): both
dipoles are driven by the rotated plane wave; `E_d_angle = None` defaults
to `mol_angle`. -/
def coupled_dip_mags_both_driven (ct : Consts) (mol_angle plas_angle : ℝ)
    (d_col : Fin 3 → ℝ) (E_d_angle : Option ℝ) (drive_hbar_w : ℝ)
    (alpha0_diag alpha1_diag : Matrix (Fin 3) (Fin 3) ℂ)
    (n_b : ℝ) (drive_amp : ℂ) : (Fin 3 → ℂ) × (Fin 3 → ℂ) :=
  coupled_dip_mags_core mol_angle plas_angle (E_d_angle.getD mol_angle)
    (G ct drive_hbar_w d_col n_b) alpha0_diag alpha1_diag drive_amp

/-- Embedding of `rotate_molecule(mol_angle, alpha0_diag, E_d_angle,
drive_amp)` for a scalar (in-plane) angle: returns the lab-frame
polarizability and the rotated driving field; `E_d_angle = None` defaults
to `mol_angle`. -/
def rotate_molecule (mol_angle : ℝ) (alpha0_diag : Matrix (Fin 3) (Fin 3) ℂ)
    (E_d_angle : Option ℝ) (drive_amp : ℂ) :
    Matrix (Fin 3) (Fin 3) ℂ × (Fin 3 → ℂ) :=
  let E_d_phi := E_d_angle.getD mol_angle
  let E_drive := drive_field E_d_phi drive_amp
  let alpha_0 := lab_frame mol_angle alpha0_diag
  (alpha_0, E_drive)

/-- Embedding of `dipole_mags_gened` (single sample): the molecule alone
is driven (`p0 = M α₀ E`), and the plasmon responds only to the molecule
field (`p1 = α₁ G p0`). -/
def dipole_mags_gened (ct : Consts) (mol_angle plas_angle : ℝ)
    (d_col : Fin 3 → ℝ) (E_d_angle : Option ℝ) (drive_hbar_w : ℝ)
    (alpha0_diag alpha1_diag : Matrix (Fin 3) (Fin 3) ℂ)
    (n_b : ℝ) (drive_amp : ℂ) : (Fin 3 → ℂ) × (Fin 3 → ℂ) :=
  let phi_1 := plas_angle
  let rm := rotate_molecule mol_angle alpha0_diag E_d_angle drive_amp
  let alpha_0 := rm.1
  let E_drive := rm.2
  let alpha_1 := lab_frame phi_1 alpha1_diag
  let G_d := G ct drive_hbar_w d_col n_b
  let geometric_coupling_01 := (1 - alpha_0 * G_d * alpha_1 * G_d)⁻¹
  let p0 := (geometric_coupling_01 * alpha_0).mulVec E_drive
  let p1 := (alpha_1 * G_d).mulVec p0
  (p0, p1)

/-- Embedding of `uncoupled_p0`: the single uncoupled molecule moment
`p0 = α₀ E` (the polarizability tensor is returned alongside, mirroring
the `return_polarizability_tensor` flag). -/
def uncoupled_p0 (mol_angle : ℝ) (E_d_angle : Option ℝ)
    (alpha_0_p0 : Matrix (Fin 3) (Fin 3) ℂ) (drive_amp : ℂ) :
    (Fin 3 → ℂ) × Matrix (Fin 3) (Fin 3) ℂ :=
  let rm := rotate_molecule mol_angle alpha_0_p0 E_d_angle drive_amp
  let alpha_0 := rm.1
  let E_drive := rm.2
  let p0_unc := alpha_0.mulVec E_drive
  (p0_unc, alpha_0)

/-- Embedding of `plas_dip_driven_by_mol` (single sample): the molecule
dipole of magnitude `mol_dipole_mag` drives the plasmon one-way;
`E_d_angle = None` defaults to `mol_angle`. -/
def plas_dip_driven_by_mol (ct : Consts) (mol_angle plas_angle : ℝ)
    (d_col : Fin 3 → ℝ) (mol_dipole_mag : ℂ) (E_d_angle : Option ℝ)
    (drive_hbar_w : ℝ) (alpha1_diag : Matrix (Fin 3) (Fin 3) ℂ)
    (n_b : ℝ) (drive_amp : ℂ) : (Fin 3 → ℂ) × (Fin 3 → ℂ) :=
  let phi_0 := mol_angle
  let phi_1 := plas_angle
  let E_d_phi := E_d_angle.getD mol_angle
  let E_drive := drive_field E_d_phi drive_amp
  let alpha0_diag : Matrix (Fin 3) (Fin 3) ℂ :=
    Matrix.of fun i j => if i = 0 ∧ j = 0 then mol_dipole_mag / drive_amp else 0
  let alpha_0 := lab_frame phi_0 alpha0_diag
  let alpha_1 := lab_frame phi_1 alpha1_diag
  let G_d := G ct drive_hbar_w d_col n_b
  let _geometric_coupling_01 := (1 - alpha_0 * G_d * alpha_1 * G_d)⁻¹
  let p0 := alpha_0.mulVec E_drive
  let p1 := (alpha_1 * G_d).mulVec p0
  (p0, p1)

/-- Embedding of `single_dip_mag_pw`: a single dipole in a plane wave,
`p0 = α₀ E`; `E_d_angle = None` defaults to `angle`. The frequency and
background-index arguments are accepted but unused, as in the source. -/
def single_dip_mag_pw (angle : ℝ) (E_d_angle : Option ℝ)
    (drive_hbar_w : ℝ) (alpha0_diag : Matrix (Fin 3) (Fin 3) ℂ)
    (n_b : ℝ) (drive_amp : ℂ) : (Fin 3 → ℂ) × Matrix (Fin 3) (Fin 3) ℂ :=
  let phi_0 := angle
  let _ := drive_hbar_w
  let _ := n_b
  let E_d_phi := E_d_angle.getD angle
  let E_drive := drive_field E_d_phi drive_amp
  let alpha_0 := lab_frame phi_0 alpha0_diag
  let p0 := alpha_0.mulVec E_drive
  (p0, alpha_0)

/-- `np.linalg.norm` of a complex 3-vector, as used by the cross-section
formulas. -/
def cnorm (p : Fin 3 → ℂ) : ℝ :=
  Real.sqrt (∑ i, Complex.abs (p i) ^ 2)

/-- Embedding of `sigma_scat_coupled` (single sample): the scattering
cross section of two coupled dipoles supplied by
`dipoles_moments_per_omega`, together with the three scaled summands
returned as the second component. -/
def sigma_scat_coupled (ct : Consts)
    (dipoles_moments_per_omega : ℝ → (Fin 3 → ℂ) × (Fin 3 → ℂ))
    (d_col : Fin 3 → ℝ) (drive_hbar_w n_b : ℝ) (E_0 : ℂ) :
    ℝ × (ℝ × ℝ × ℝ) :=
  let omega := drive_hbar_w / ct.hbar
  let k := omega * n_b / ct.c
  let p := dipoles_moments_per_omega omega
  let p_0 := p.1
  let p_1 := p.2
  let G_d := G ct drive_hbar_w d_col n_b
  let interference_term : ℝ :=
    ∑ i, ((p_0 i * (starRingEnd ℂ) (G_d.mulVec p_1 i)).im
          + (p_1 i * (starRingEnd ℂ) (G_d.mulVec p_0 i)).im)
  let diag_term_0 : ℝ := 2 / 3 * k ^ 3 * |cnorm p_0| ^ 2
  let diag_term_1 : ℝ := 2 / 3 * k ^ 3 * |cnorm p_1| ^ 2
  let sigma :=
    4 * Real.pi * k / Complex.abs E_0 ^ 2 *
      (interference_term + diag_term_0 + diag_term_1) / n_b
  (sigma,
    (interference_term * (4 * Real.pi * k / (n_b * Complex.abs E_0 ^ 2)),
     diag_term_0 * (4 * Real.pi * k / (n_b * Complex.abs E_0 ^ 2)),
     diag_term_1 * (4 * Real.pi * k / (n_b * Complex.abs E_0 ^ 2))))

/-- Embedding of `single_dip_sigma_scat` (single sample): the scattering
cross section of one uncoupled dipole. -/
def single_dip_sigma_scat (ct : Consts)
    (dipoles_moments_per_omega : ℝ → (Fin 3 → ℂ))
    (drive_hbar_w n_b : ℝ) (E_0 : ℂ) : ℝ :=
  let omega := drive_hbar_w / ct.hbar
  let k := omega * n_b / ct.c
  let p_0 := dipoles_moments_per_omega omega
  let diag_term_0 : ℝ := 2 / 3 * k ^ 3 * |cnorm p_0| ^ 2
  4 * Real.pi * k / Complex.abs E_0 ^ 2 * diag_term_0 / n_b

/-- The closed set of `isolate_mode` values accepted by the
polarizability models (the source compares against the strings
"long", "short", "trans"; `none` is the Python `None`). -/
inductive IsolateMode
  | long
  | short
  | trans

/-- Embedding of `distribute_sphere_alpha_components_into_tensor`
(single sample): broadcast the three per-axis polarizabilities into a
diagonal tensor, or the axis-restricted subset selected by
`isolate_mode`. -/
def distribute_sphere_alpha_components_into_tensor
    (alpha_11 alpha_22 alpha_33 : ℂ) (isolate_mode : Option IsolateMode) :
    Matrix (Fin 3) (Fin 3) ℂ :=
  match isolate_mode with
  | none =>
      alpha_11 • !![(1 : ℂ), 0, 0; 0, 0, 0; 0, 0, 0]
        + alpha_22 • !![(0 : ℂ), 0, 0; 0, 1, 0; 0, 0, 0]
        + alpha_33 • !![(0 : ℂ), 0, 0; 0, 0, 0; 0, 0, 1]
  | some IsolateMode.long =>
      alpha_11 • !![(1 : ℂ), 0, 0; 0, 0, 0; 0, 0, 0]
  | some IsolateMode.short =>
      alpha_22 • !![(0 : ℂ), 0, 0; 0, 1, 0; 0, 0, 0]
        + alpha_33 • !![(0 : ℂ), 0, 0; 0, 0, 0; 0, 0, 1]
  | some IsolateMode.trans =>
      alpha_22 • !![(0 : ℂ), 0, 0; 0, 1, 0; 0, 0, 0]
        + alpha_33 • !![(0 : ℂ), 0, 0; 0, 0, 0; 0, 0, 1]

/-- The quasistatic sphere polarizability `alphaR_ii` internal to
`sparse_ret_sphere_polarizability`:
`((a³)/3) (ε - ε_b)/(ε_b + (1/3)(ε - ε_b))`. -/
def sphere_alphaR (eps : ℂ) (eps_b : ℝ) (a : ℝ) : ℂ :=
  ((a ^ 3 : ℝ) : ℂ) / 3 * (eps - (eps_b : ℂ)) /
    ((eps_b : ℂ) + 1 / 3 * (eps - (eps_b : ℂ)))

/-- The retardation-corrected sphere component `alphaMW_ii` internal to
`sparse_ret_sphere_polarizability`:
`alphaR / (1 - (k²/a) alphaR - i (2k³/3) alphaR)` with `k = w √ε_b / c`. -/
def sphere_alphaMW (ct : Consts) (eps : ℂ) (eps_b : ℝ) (a w : ℝ) : ℂ :=
  let alphaR := sphere_alphaR eps eps_b a
  let k : ℝ := w * Real.sqrt eps_b / ct.c
  alphaR /
    (1 - ((k ^ 2 / a : ℝ) : ℂ) * alphaR
       - Complex.I * (((2 * k ^ 3) / 3 : ℝ) : ℂ) * alphaR)

/-- Embedding of `sparse_ret_sphere_polarizability(eps, eps_b, a, w,
isolate_mode)`: the dedicated non-singular sphere code path (MLWA with
`(k²/a)`-based retardation correction). -/
def sparse_ret_sphere_polarizability (ct : Consts) (eps : ℂ) (eps_b : ℝ)
    (a w : ℝ) (isolate_mode : Option IsolateMode) :
    Matrix (Fin 3) (Fin 3) ℂ :=
  let alpha_11 := sphere_alphaMW ct eps eps_b a w
  let alpha_22 := sphere_alphaMW ct eps eps_b a w
  let alpha_33 := sphere_alphaMW ct eps eps_b a w
  distribute_sphere_alpha_components_into_tensor alpha_11 alpha_22 alpha_33
    isolate_mode

/-- The internal quadrature `L_i(a, b, c)` of
`sparse_ellipsoid_polarizability`: trapezoidal integration of
`1/((a² + q)·sqrt((a² + q)(b² + q)(c² + q)))` over the fixed grid
`q = np.linspace(0, 10000, 100000) * nm²`, scaled by `a b c / 2`. -/
def ellipsoid_L_i (ct : Consts) (a b c : ℝ) : ℝ :=
  let q : ℕ → ℝ := fun j => 10000 * j / 99999 * ct.nm ^ 2
  let integrand : ℝ → ℝ := fun t =>
    1 / ((a ^ 2 + t) * Real.sqrt ((a ^ 2 + t) * (b ^ 2 + t) * (c ^ 2 + t)))
  let integral : ℝ :=
    ∑ j ∈ Finset.range 99999,
      (q (j + 1) - q j) * (integrand (q j) + integrand (q (j + 1))) / 2
  a * b * c / 2 * integral

/-- The integrand of the depolarization quadrature:
`1/((a² + q)·sqrt((a² + q)(b² + q)(c² + q)))`. -/
def ellipsoid_f (a b c q : ℝ) : ℝ :=
  1 / ((a ^ 2 + q) * Real.sqrt ((a ^ 2 + q) * (b ^ 2 + q) * (c ^ 2 + q)))

/-- The sum of the three depolarization integrands, in the cyclic
argument order used by `sparse_ellipsoid_polarizability`. -/
def ellipsoid_g (a b c q : ℝ) : ℝ :=
  ellipsoid_f a b c q + ellipsoid_f b c a q + ellipsoid_f c a b q

/-- The exact antiderivative of `-ellipsoid_g`:
`2/sqrt((a² + q)(b² + q)(c² + q))`; its endpoint differences dominate the
trapezoid sums of `ellipsoid_g`. -/
def ellipsoid_h (a b c q : ℝ) : ℝ :=
  2 / Real.sqrt ((a ^ 2 + q) * (b ^ 2 + q) * (c ^ 2 + q))

/-- The quadrature grid of `ellipsoid_L_i` in unit length scale:
`np.linspace(0, 10000, 100000)`. -/
def qgrid (j : ℕ) : ℝ := 10000 * j / 99999

/-- Embedding of `sparse_ellipsoid_polarizability(eps, eps_b, a_x, a_y,
a_z)`: the quasistatic triaxial-ellipsoid tensor with depolarization
factors from the numerical quadrature `ellipsoid_L_i`. -/
def sparse_ellipsoid_polarizability (ct : Consts) (eps : ℂ) (eps_b : ℝ)
    (a_x a_y a_z : ℝ) : Matrix (Fin 3) (Fin 3) ℂ :=
  let alpha_ii : ℝ → ℝ → ℝ → ℂ := fun a b c =>
    ((a * b * c : ℝ) : ℂ) * (eps - (eps_b : ℂ)) /
      (3 * (eps_b : ℂ) + 3 * ((ellipsoid_L_i ct a b c : ℝ) : ℂ) * (eps - (eps_b : ℂ)))
  let alpha_1 := alpha_ii a_x a_y a_z
  let alpha_2 := alpha_ii a_y a_z a_x
  let alpha_3 := alpha_ii a_z a_x a_y
  !![alpha_1, 0, 0; 0, alpha_2, 0; 0, 0, alpha_3]

/-- Modelled from the spec: `np.arctanh`, absent from the sources, as the
standard inverse hyperbolic tangent `log((1 + x)/(1 - x))/2`. -/
def arctanh (x : ℝ) : ℝ :=
  Real.log ((1 + x) / (1 - x)) / 2

/-- The eccentricity `ecc(a_x, a_yz)` internal to
`sparse_ret_prolate_spheroid_polarizability`. -/
def spheroid_ecc (a_x a_yz : ℝ) : ℝ :=
  Real.sqrt (|a_x ^ 2 - a_yz ^ 2| / max a_x a_yz ^ 2)

/-- The static geometric factor `L_x(a_x, a_yz)` internal to
`sparse_ret_prolate_spheroid_polarizability`; in the sphere-degenerate
case `a_x = a_yz` neither branch assigns the local variable and the
Python function raises, embedded here as `none`. -/
def spheroid_L_x (a_x a_yz : ℝ) : Option ℝ :=
  let e := spheroid_ecc a_x a_yz
  if a_x > a_yz then
    some ((1 - e ^ 2) / e ^ 3 * (-e + arctanh e))
  else if a_x < a_yz then
    some (1 / e ^ 2 * (1 - Real.sqrt (1 - e ^ 2) / e * Real.arcsin e))
  else
    none

/-- The static geometric factor `L_i(i, a_x, a_yz)`: `L_x` for `i = 1`,
`L_yz = (1 - L_x)/2` for `i ∈ {2, 3}`, unbound (hence `none`)
otherwise. -/
def spheroid_L_i (i : ℕ) (a_x a_yz : ℝ) : Option ℝ :=
  if i = 1 then
    spheroid_L_x a_x a_yz
  else if i = 2 ∨ i = 3 then
    (spheroid_L_x a_x a_yz).map fun L => (1 - L) / 2
  else
    none

/-- The dynamic geometric factor `D_x(a_x, a_yz)` internal to
`sparse_ret_prolate_spheroid_polarizability`. -/
def spheroid_D_x (a_x a_yz : ℝ) : Option ℝ :=
  let e := spheroid_ecc a_x a_yz
  if a_x > a_yz then
    (spheroid_L_i 1 a_x a_yz).map fun L =>
      3 / 4 * ((1 + e ^ 2) / (1 - e ^ 2) * L + 1)
  else if a_x < a_yz then
    (spheroid_L_i 1 a_x a_yz).map fun L =>
      3 / 4 * ((1 - 2 * e ^ 2) * L + 1)
  else
    none

/-- The dynamic geometric factor `D_yz(a_x, a_yz)` internal to
`sparse_ret_prolate_spheroid_polarizability`. -/
def spheroid_D_yz (a_x a_yz : ℝ) : Option ℝ :=
  let e := spheroid_ecc a_x a_yz
  if a_x > a_yz then
    (spheroid_D_x a_x a_yz).map fun D =>
      a_yz / (2 * a_x) * (3 / e * arctanh e - D)
  else if a_x < a_yz then
    (spheroid_D_x a_x a_yz).map fun D =>
      a_yz / (2 * a_x) * (3 * Real.sqrt (1 - e ^ 2) / e * Real.arcsin e - D)
  else
    none

/-- The quasistatic component `alphaR_ii(i, a_x, a_yz)` internal to
`sparse_ret_prolate_spheroid_polarizability`. -/
def spheroid_alphaR_ii (eps : ℂ) (eps_b : ℝ) (i : ℕ) (a_x a_yz : ℝ) :
    Option ℂ :=
  (spheroid_L_i i a_x a_yz).map fun L =>
    ((a_x * a_yz ^ 2 : ℝ) : ℂ) / 3 * (eps - (eps_b : ℂ)) /
      ((eps_b : ℂ) + ((L : ℝ) : ℂ) * (eps - (eps_b : ℂ)))

/-- The retardation-corrected component `alphaMW_ii(i, a_x, a_yz)`
internal to `sparse_ret_prolate_spheroid_polarizability`; `none` whenever
one of its branch-dependent locals would be unbound. -/
def spheroid_alphaMW_ii (ct : Consts) (eps : ℂ) (eps_b : ℝ) (w : ℝ)
    (i : ℕ) (a_x a_yz : ℝ) : Option ℂ := do
  let alphaR ← spheroid_alphaR_ii eps eps_b i a_x a_yz
  let k : ℝ := w * Real.sqrt eps_b / ct.c
  let lD ←
    if i = 1 then
      (spheroid_D_x a_x a_yz).map fun D => (a_x, D)
    else if i = 2 ∨ i = 3 then
      (spheroid_D_yz a_x a_yz).map fun D => (a_yz, D)
    else
      none
  pure (alphaR /
    (1 - ((k ^ 2 / lD.1 : ℝ) : ℂ) * ((lD.2 : ℝ) : ℂ) * alphaR
       - Complex.I * (((2 * k ^ 3) / 3 : ℝ) : ℂ) * alphaR))

/-- Embedding of `sparse_ret_prolate_spheroid_polarizability(eps, eps_b,
a_x, a_yz, w, isolate_mode)`: the MLWA prolate/oblate spheroid tensor;
`none` models the unbound-local exception raised on the
sphere-degenerate diagonal `a_x = a_yz` (and for indices no branch
assigns). -/
def sparse_ret_prolate_spheroid_polarizability (ct : Consts) (eps : ℂ)
    (eps_b : ℝ) (a_x a_yz w : ℝ) (isolate_mode : Option IsolateMode) :
    Option (Matrix (Fin 3) (Fin 3) ℂ) := do
  let alphas ←
    if a_x > a_yz then do
      let alpha_11 ← spheroid_alphaMW_ii ct eps eps_b w 1 a_x a_yz
      let alpha_22 ← spheroid_alphaMW_ii ct eps eps_b w 2 a_x a_yz
      let alpha_33 ← spheroid_alphaMW_ii ct eps eps_b w 3 a_x a_yz
      pure (alpha_11, alpha_22, alpha_33)
    else if a_x < a_yz then do
      let alpha_11 ← spheroid_alphaMW_ii ct eps eps_b w 2 a_x a_yz
      let alpha_22 ← spheroid_alphaMW_ii ct eps eps_b w 2 a_x a_yz
      let alpha_33 ← spheroid_alphaMW_ii ct eps eps_b w 1 a_x a_yz
      pure (alpha_11, alpha_22, alpha_33)
    else
      none
  match isolate_mode with
  | none =>
      pure !![alphas.1, 0, 0; 0, alphas.2.1, 0; 0, 0, alphas.2.2]
  | some IsolateMode.long =>
      if a_x > a_yz then
        pure !![alphas.1, 0, 0; 0, 0, 0; 0, 0, 0]
      else if a_x < a_yz then
        pure !![alphas.1, 0, 0; 0, alphas.2.1, 0; 0, 0, 0]
      else
        none
  | some IsolateMode.short =>
      if a_x > a_yz then
        pure !![(0 : ℂ), 0, 0; 0, alphas.2.1, 0; 0, 0, alphas.2.2]
      else if a_x < a_yz then
        pure !![(0 : ℂ), 0, 0; 0, 0, 0; 0, 0, alphas.2.2]
      else
        none
  | some IsolateMode.trans =>
      if a_x > a_yz then
        pure !![(0 : ℂ), 0, 0; 0, alphas.2.1, 0; 0, 0, alphas.2.2]
      else if a_x < a_yz then
        pure !![(0 : ℂ), 0, 0; 0, 0, 0; 0, 0, alphas.2.2]
      else
        none

/-- Concrete molecule polarizability `diag(1, 0, 0)` for the
concrete-input theorems. -/
def alpha0ce : Matrix (Fin 3) (Fin 3) ℂ := !![1, 0, 0; 0, 0, 0; 0, 0, 0]

/-- Concrete plasmon polarizability `diag(2, 3, 5)` for the
concrete-input theorems. -/
def alpha1ce : Matrix (Fin 3) (Fin 3) ℂ := !![2, 0, 0; 0, 3, 0; 0, 0, 5]

/-- The value of the coupling tensor at separation `(3, 4, 0)`, zero
drive energy, unit background index and unit constants. -/
def Gce : Matrix (Fin 3) (Fin 3) ℂ :=
  !![2 / 3125, 36 / 3125, 0; 36 / 3125, 23 / 3125, 0; 0, 0, -(1 / 125)]

/-- The concrete round-trip matrix `1 - α₀ G α₁ G` at the inputs above. -/
def Ace : Matrix (Fin 3) (Fin 3) ℂ :=
  !![9761729 / 9765625, -(2628 / 9765625), 0; 0, 1, 0; 0, 0, 1]

/-- The inverse of `Ace`. -/
def Bce : Matrix (Fin 3) (Fin 3) ℂ :=
  !![9765625 / 9761729, 2628 / 9761729, 0; 0, 1, 0; 0, 0, 1]

/-! ### Rotation lemmas -/

lemma rotation_by_neg_mul (φ : ℝ) (ax : RotAxis) :
    rotation_by (-φ) ax * rotation_by φ ax = 1 := by
  have h := Real.sin_sq_add_cos_sq φ
  cases ax <;>
    · ext i j
      fin_cases i <;> fin_cases j <;>
        simp [rotation_by, Matrix.mul_apply, Fin.sum_univ_three,
          Real.cos_neg, Real.sin_neg, Matrix.one_apply, Matrix.vecHead,
          Matrix.vecTail, -mul_eq_zero] <;>
        nlinarith [h]

lemma rotation_by_mul_neg (φ : ℝ) (ax : RotAxis) :
    rotation_by φ ax * rotation_by (-φ) ax = 1 := by
  have h := rotation_by_neg_mul (-φ) ax
  rwa [neg_neg] at h

/-- C7: the round-trip law, stated for all three axes:
`rotation_by(-φ) @ rotation_by(φ) = I`, `rotation_by(φ) @ rotation_by(-φ)
= I`, and conjugating any real 3×3 tensor by `φ` and then by `-φ`
reproduces it exactly. -/
theorem claim_C7_rotation_round_trip (φ : ℝ) (ax : RotAxis) :
    rotation_by (-φ) ax * rotation_by φ ax = 1 ∧
    rotation_by φ ax * rotation_by (-φ) ax = 1 ∧
    ∀ A : Matrix (Fin 3) (Fin 3) ℝ,
      rotation_by φ ax * (rotation_by (-φ) ax * A * rotation_by φ ax) *
        rotation_by (-φ) ax = A := by
  refine ⟨rotation_by_neg_mul φ ax, rotation_by_mul_neg φ ax, fun A => ?_⟩
  calc
    rotation_by φ ax * (rotation_by (-φ) ax * A * rotation_by φ ax) *
        rotation_by (-φ) ax
      = rotation_by φ ax * rotation_by (-φ) ax * A *
          (rotation_by φ ax * rotation_by (-φ) ax) := by
        simp only [Matrix.mul_assoc]
    _ = A := by rw [rotation_by_mul_neg, Matrix.one_mul, Matrix.mul_one]

/-! ### The uncoupled limit -/

/-- C3: when the coupling tensor is forced to the zero matrix, the
both-driven coupled solver returns exactly the uncoupled moments
`p0 = α₀ E` and `p1 = α₁ E` for the lab-frame tensors and the rotated
drive field. -/
theorem claim_C3_uncoupled_limit (mol_angle plas_angle E_d_phi : ℝ)
    (alpha0_diag alpha1_diag : Matrix (Fin 3) (Fin 3) ℂ) (drive_amp : ℂ) :
    coupled_dip_mags_core mol_angle plas_angle E_d_phi 0
        alpha0_diag alpha1_diag drive_amp =
      ((lab_frame mol_angle alpha0_diag).mulVec (drive_field E_d_phi drive_amp),
       (lab_frame plas_angle alpha1_diag).mulVec (drive_field E_d_phi drive_amp)) := by
  simp [coupled_dip_mags_core, inv_one]

/-! ### The sphere-degenerate spheroid raises -/

/-- C9: on the sphere-degenerate diagonal `a_x = a_yz` the spheroid
polarizability raises (returns no tensor): neither the prolate nor the
oblate branch applies. -/
theorem claim_C9_spheroid_sphere_degenerate (ct : Consts) (eps : ℂ)
    (eps_b : ℝ) (a w : ℝ) (isolate_mode : Option IsolateMode) :
    sparse_ret_prolate_spheroid_polarizability ct eps eps_b a a w
      isolate_mode = none := by
  simp [sparse_ret_prolate_spheroid_polarizability]

/-! ### Defaulting of the drive angle -/

/-- C10: every solver entry point taking an optional incident-field angle
returns, with `E_d_angle = None`, exactly its result with `E_d_angle`
set to the emitter angle. -/
theorem claim_C10_drive_angle_default (ct : Consts)
    (mol_angle plas_angle : ℝ) (d_col : Fin 3 → ℝ) (drive_hbar_w : ℝ)
    (alpha0_diag alpha1_diag : Matrix (Fin 3) (Fin 3) ℂ)
    (mol_dipole_mag : ℂ) (n_b : ℝ) (drive_amp : ℂ) :
    rotate_molecule mol_angle alpha0_diag none drive_amp =
      rotate_molecule mol_angle alpha0_diag (some mol_angle) drive_amp ∧
    dipole_mags_gened ct mol_angle plas_angle d_col none drive_hbar_w
        alpha0_diag alpha1_diag n_b drive_amp =
      dipole_mags_gened ct mol_angle plas_angle d_col (some mol_angle)
        drive_hbar_w alpha0_diag alpha1_diag n_b drive_amp ∧
    uncoupled_p0 mol_angle none alpha0_diag drive_amp =
      uncoupled_p0 mol_angle (some mol_angle) alpha0_diag drive_amp ∧
    coupled_dip_mags_both_driven ct mol_angle plas_angle d_col none
        drive_hbar_w alpha0_diag alpha1_diag n_b drive_amp =
      coupled_dip_mags_both_driven ct mol_angle plas_angle d_col
        (some mol_angle) drive_hbar_w alpha0_diag alpha1_diag n_b drive_amp ∧
    plas_dip_driven_by_mol ct mol_angle plas_angle d_col mol_dipole_mag
        none drive_hbar_w alpha1_diag n_b drive_amp =
      plas_dip_driven_by_mol ct mol_angle plas_angle d_col mol_dipole_mag
        (some mol_angle) drive_hbar_w alpha1_diag n_b drive_amp ∧
    single_dip_mag_pw mol_angle none drive_hbar_w alpha0_diag n_b drive_amp =
      single_dip_mag_pw mol_angle (some mol_angle) drive_hbar_w alpha0_diag
        n_b drive_amp :=
  ⟨rfl, rfl, rfl, rfl, rfl, rfl⟩

/-! ### The Green tensor computes the spec formula -/

/-- C4: for every separation with `|d| > 0` the function `G` returns the
spec's dyadic `exp(ikr)[(3n̂⊗n̂-I)(1/r³-ik/r²)-(n̂⊗n̂-I)(k²/r)]` with
`n̂ = d/r`, `r = |d|`, `k = (ħω/ħ)·n_b/c`, and hence depends on the
separation only through its direction and magnitude. -/
theorem claim_C4_green_tensor_formula (ct : Consts) (drive_hbar_w n_b : ℝ)
    (d_col : Fin 3 → ℝ) (h : 0 < vec_mag d_col) :
    G ct drive_hbar_w d_col n_b =
      Gspec (fun i => d_col i / vec_mag d_col) (vec_mag d_col)
        (drive_hbar_w / ct.hbar * n_b / ct.c) ∧
    ∀ d2 : Fin 3 → ℝ, vec_mag d2 = vec_mag d_col →
      (fun i => d2 i / vec_mag d2) = (fun i => d_col i / vec_mag d_col) →
      G ct drive_hbar_w d2 n_b = G ct drive_hbar_w d_col n_b := by
  refine ⟨rfl, fun d2 hmag hdir => ?_⟩
  show Gspec (fun i => d2 i / vec_mag d2) (vec_mag d2)
        (drive_hbar_w / ct.hbar * n_b / ct.c) =
      Gspec (fun i => d_col i / vec_mag d_col) (vec_mag d_col)
        (drive_hbar_w / ct.hbar * n_b / ct.c)
  rw [hdir, hmag]

lemma vec_mag_345 : vec_mag ![3, 4, 0] = 5 := by
  have h : (∑ i, (![3, 4, 0] : Fin 3 → ℝ) i ^ 2) = 25 := by
    simp [Fin.sum_univ_three]
    norm_num
  rw [vec_mag, h, show (25 : ℝ) = 5 ^ 2 by norm_num,
    Real.sqrt_sq (by norm_num : (0 : ℝ) ≤ 5)]

/-- Witness for `claim_C4_green_tensor_formula` at the separation
`(3, 4, 0)`. -/
theorem claim_C4_green_tensor_formula_witness :
    0 < vec_mag ![3, 4, 0] ∧
    (G ctOne 0 ![3, 4, 0] 1 =
      Gspec (fun i => (![3, 4, 0] : Fin 3 → ℝ) i / vec_mag ![3, 4, 0])
        (vec_mag ![3, 4, 0]) (0 / ctOne.hbar * 1 / ctOne.c) ∧
    ∀ d2 : Fin 3 → ℝ, vec_mag d2 = vec_mag ![3, 4, 0] →
      (fun i => d2 i / vec_mag d2) =
        (fun i => (![3, 4, 0] : Fin 3 → ℝ) i / vec_mag ![3, 4, 0]) →
      G ctOne 0 d2 1 = G ctOne 0 ![3, 4, 0] 1) := by
  have hpos : 0 < vec_mag ![3, 4, 0] := by rw [vec_mag_345]; norm_num
  exact ⟨hpos, claim_C4_green_tensor_formula ctOne 0 1 ![3, 4, 0] hpos⟩

/-! ### The retarded sphere polarizability -/

/-- C6 (amended): with `isolate_mode = None` every diagonal entry of the
retarded-sphere tensor equals `αR/(1 - (k²/a)αR - i(2k³/3)αR)` with
`k = w√ε_b/c` and the quasistatic value `αR = (a³/3)(ε-ε_b)/(ε_b+⅓(ε-ε_b))`
(equivalently, the Clausius-Mossotti form `a³(ε-ε_b)/(ε+2ε_b)`), a third
of the value the spec sentence names. -/
theorem claim_C6_amended_sphere_diagonal (ct : Consts) (eps : ℂ)
    (eps_b a w : ℝ) (h : 0 < a) :
    (∀ i, sparse_ret_sphere_polarizability ct eps eps_b a w none i i =
      sphere_alphaR eps eps_b a /
        (1 - (((w * Real.sqrt eps_b / ct.c) ^ 2 / a : ℝ) : ℂ) *
              sphere_alphaR eps eps_b a
           - Complex.I *
              (((2 * (w * Real.sqrt eps_b / ct.c) ^ 3) / 3 : ℝ) : ℂ) *
              sphere_alphaR eps eps_b a)) ∧
    sphere_alphaR eps eps_b a =
      ((a ^ 3 : ℝ) : ℂ) * (eps - (eps_b : ℂ)) / (eps + 2 * (eps_b : ℂ)) := by
  constructor
  · intro i
    fin_cases i <;>
      simp [sparse_ret_sphere_polarizability,
        distribute_sphere_alpha_components_into_tensor, sphere_alphaMW]
  · rw [sphere_alphaR,
      show eps + 2 * (eps_b : ℂ) =
        3 * ((eps_b : ℂ) + 1 / 3 * (eps - (eps_b : ℂ))) by ring]
    simp only [div_eq_mul_inv, mul_inv]
    ring

/-- Witness for `claim_C6_amended_sphere_diagonal` at
`ε = 2, ε_b = 1, a = 1, w = 0`. -/
theorem claim_C6_amended_sphere_diagonal_witness :
    (0 : ℝ) < 1 ∧
    ((∀ i, sparse_ret_sphere_polarizability ctOne 2 1 1 0 none i i =
      sphere_alphaR 2 1 1 /
        (1 - (((0 * Real.sqrt 1 / ctOne.c) ^ 2 / 1 : ℝ) : ℂ) *
              sphere_alphaR 2 1 1
           - Complex.I *
              (((2 * (0 * Real.sqrt 1 / ctOne.c) ^ 3) / 3 : ℝ) : ℂ) *
              sphere_alphaR 2 1 1)) ∧
    sphere_alphaR 2 1 1 =
      ((1 ^ 3 : ℝ) : ℂ) * (2 - (1 : ℝ)) / (2 + 2 * (1 : ℝ))) :=
  ⟨by norm_num, claim_C6_amended_sphere_diagonal ctOne 2 1 1 0 (by norm_num)⟩

/-- Counterexample to C6 as stated: at `ε = 2, ε_b = 1, a = 1, w = 0`
(so `k = 0`) the code's `(0,0)` entry is `1/4`, while the claim's
formula with `αR = a³(ε-ε_b)/(ε_b+⅓(ε-ε_b))` gives `3/4`. -/
theorem claim_C6_counterexample :
    sparse_ret_sphere_polarizability ctOne 2 1 1 0 none 0 0 ≠
      ((1 : ℝ) ^ 3 : ℂ) * (2 - 1) / (1 + 1 / 3 * (2 - 1)) /
        (1 - (((0 * Real.sqrt 1 / ctOne.c) ^ 2 / 1 : ℝ) : ℂ) *
              (((1 : ℝ) ^ 3 : ℂ) * (2 - 1) / (1 + 1 / 3 * (2 - 1)))
           - Complex.I *
              (((2 * (0 * Real.sqrt 1 / ctOne.c) ^ 3) / 3 : ℝ) : ℂ) *
              (((1 : ℝ) ^ 3 : ℂ) * (2 - 1) / (1 + 1 / 3 * (2 - 1)))) := by
  have hlhs : sparse_ret_sphere_polarizability ctOne 2 1 1 0 none 0 0 =
      (1 / 4 : ℂ) := by
    simp [sparse_ret_sphere_polarizability,
      distribute_sphere_alpha_components_into_tensor, sphere_alphaMW,
      sphere_alphaR, ctOne]
    norm_num
  rw [hlhs]
  simp [ctOne]
  norm_num

/-! ### Scattering cross sections -/

lemma abs_cnorm_sq (p : Fin 3 → ℂ) :
    |cnorm p| ^ 2 = ∑ i, Complex.abs (p i) ^ 2 := by
  rw [cnorm, sq_abs, Real.sq_sqrt]
  positivity

/-- C5: the first component returned by `sigma_scat_coupled` is the spec's
coupled DDA cross section
`(4πk/(n_b|E₀|²))[Im(p₀·conj(G p₁)) + Im(p₁·conj(G p₀)) +
(2/3)k³(|p₀|²+|p₁|²)]`, and with the second dipole's terms removed the
same expression is the value of `single_dip_sigma_scat`. -/
theorem claim_C5_sigma_scat_formula (ct : Consts)
    (dipoles_moments_per_omega : ℝ → (Fin 3 → ℂ) × (Fin 3 → ℂ))
    (single_moment_per_omega : ℝ → Fin 3 → ℂ)
    (d_col : Fin 3 → ℝ) (drive_hbar_w n_b : ℝ) (E_0 : ℂ) :
    (sigma_scat_coupled ct dipoles_moments_per_omega d_col drive_hbar_w
        n_b E_0).1 =
      4 * Real.pi * (drive_hbar_w / ct.hbar * n_b / ct.c) /
          (n_b * Complex.abs E_0 ^ 2) *
        ((∑ i, (dipoles_moments_per_omega (drive_hbar_w / ct.hbar)).1 i *
            (starRingEnd ℂ)
              ((G ct drive_hbar_w d_col n_b).mulVec
                (dipoles_moments_per_omega (drive_hbar_w / ct.hbar)).2 i)).im
         + (∑ i, (dipoles_moments_per_omega (drive_hbar_w / ct.hbar)).2 i *
            (starRingEnd ℂ)
              ((G ct drive_hbar_w d_col n_b).mulVec
                (dipoles_moments_per_omega (drive_hbar_w / ct.hbar)).1 i)).im
         + 2 / 3 * (drive_hbar_w / ct.hbar * n_b / ct.c) ^ 3 *
            ((∑ i, Complex.abs
                ((dipoles_moments_per_omega (drive_hbar_w / ct.hbar)).1 i) ^ 2)
             + ∑ i, Complex.abs
                ((dipoles_moments_per_omega (drive_hbar_w / ct.hbar)).2 i) ^ 2)) ∧
    single_dip_sigma_scat ct single_moment_per_omega drive_hbar_w n_b E_0 =
      4 * Real.pi * (drive_hbar_w / ct.hbar * n_b / ct.c) /
          (n_b * Complex.abs E_0 ^ 2) *
        (2 / 3 * (drive_hbar_w / ct.hbar * n_b / ct.c) ^ 3 *
          ∑ i, Complex.abs (single_moment_per_omega (drive_hbar_w / ct.hbar) i) ^ 2) := by
  constructor
  · show 4 * Real.pi * (drive_hbar_w / ct.hbar * n_b / ct.c) /
        Complex.abs E_0 ^ 2 *
        ((∑ i, (((dipoles_moments_per_omega (drive_hbar_w / ct.hbar)).1 i *
            (starRingEnd ℂ)
              ((G ct drive_hbar_w d_col n_b).mulVec
                (dipoles_moments_per_omega (drive_hbar_w / ct.hbar)).2 i)).im
          + ((dipoles_moments_per_omega (drive_hbar_w / ct.hbar)).2 i *
            (starRingEnd ℂ)
              ((G ct drive_hbar_w d_col n_b).mulVec
                (dipoles_moments_per_omega (drive_hbar_w / ct.hbar)).1 i)).im))
         + 2 / 3 * (drive_hbar_w / ct.hbar * n_b / ct.c) ^ 3 *
            |cnorm (dipoles_moments_per_omega (drive_hbar_w / ct.hbar)).1| ^ 2
         + 2 / 3 * (drive_hbar_w / ct.hbar * n_b / ct.c) ^ 3 *
            |cnorm (dipoles_moments_per_omega (drive_hbar_w / ct.hbar)).2| ^ 2) /
        n_b = _
    rw [Finset.sum_add_distrib, abs_cnorm_sq, abs_cnorm_sq,
      Complex.im_sum, Complex.im_sum]
    ring
  · show 4 * Real.pi * (drive_hbar_w / ct.hbar * n_b / ct.c) /
        Complex.abs E_0 ^ 2 *
        (2 / 3 * (drive_hbar_w / ct.hbar * n_b / ct.c) ^ 3 *
          |cnorm (single_moment_per_omega (drive_hbar_w / ct.hbar))| ^ 2) /
        n_b = _
    rw [abs_cnorm_sq]
    ring

/-! ### Evaluation of the solvers at a concrete input -/

lemma rotation_byC_zero : rotation_byC 0 RotAxis.z = 1 := by
  ext i j
  fin_cases i <;> fin_cases j <;>
    · simp [rotation_byC, rotation_by, Matrix.one_apply,
        Matrix.vecHead, Matrix.vecTail]
      try rfl

lemma lab_frame_zero (A : Matrix (Fin 3) (Fin 3) ℂ) : lab_frame 0 A = A := by
  rw [lab_frame, neg_zero, rotation_byC_zero, Matrix.one_mul, Matrix.mul_one]

lemma drive_field_zero_one :
    drive_field 0 1 = fun j : Fin 3 => if j = 0 then (1 : ℂ) else 0 := by
  rw [drive_field, rotation_byC_zero]
  exact Matrix.one_mulVec _

lemma G_ce : G ctOne 0 ![3, 4, 0] 1 = Gce := by
  ext i j
  fin_cases i <;> fin_cases j <;>
    · simp [G, Gce, vec_mag_345, ctOne, Matrix.vecHead, Matrix.vecTail]
      try norm_num

lemma XA_ce :
    (1 : Matrix (Fin 3) (Fin 3) ℂ) - alpha0ce * Gce * alpha1ce * Gce = Ace := by
  ext i j
  fin_cases i <;> fin_cases j <;>
    · simp [alpha0ce, alpha1ce, Gce, Ace, Matrix.mul_apply,
        Fin.sum_univ_three, Matrix.one_apply, Matrix.sub_apply,
        Matrix.vecHead, Matrix.vecTail]
      try norm_num

lemma Ainv_ce : Ace⁻¹ = Bce := by
  apply Matrix.inv_eq_right_inv
  ext i j
  fin_cases i <;> fin_cases j <;>
    · simp [Ace, Bce, Matrix.mul_apply, Fin.sum_univ_three,
        Matrix.one_apply, Matrix.vecHead, Matrix.vecTail]
      try norm_num

lemma detA_ce_unit : IsUnit Ace.det := by
  rw [Matrix.det_fin_three]
  norm_num [Ace]

lemma coupled_ce :
    coupled_dip_mags_both_driven ctOne 0 0 ![3, 4, 0] (some 0) 0
        alpha0ce alpha1ce 1 1 =
      (![9778125 / 9761729, 0, 0],
       ![61074502574 / 30505403125, 108 / 3125, 0]) := by
  have h1 : coupled_dip_mags_both_driven ctOne 0 0 ![3, 4, 0] (some 0) 0
        alpha0ce alpha1ce 1 1 =
      ((Ace⁻¹ * (alpha0ce * (1 + Gce * alpha1ce))).mulVec
          fun j => if j = 0 then 1 else 0,
       (Ace⁻¹ * (alpha1ce * (1 + Gce * alpha0ce))).mulVec
          fun j => if j = 0 then 1 else 0) := by
    simp only [coupled_dip_mags_both_driven, coupled_dip_mags_core,
      Option.getD_some]
    rw [G_ce, lab_frame_zero, lab_frame_zero, drive_field_zero_one, XA_ce]
  rw [h1, Ainv_ce]
  refine Prod.ext ?_ ?_ <;>
    · funext i
      fin_cases i <;>
        · simp [Bce, alpha0ce, alpha1ce, Gce, Matrix.mulVec,
            Matrix.mul_apply, Matrix.dotProduct, Fin.sum_univ_three,
            Matrix.one_fin_three, Matrix.add_apply, Matrix.vecHead,
            Matrix.vecTail]
          try norm_num

lemma gened_ce :
    dipole_mags_gened ctOne 0 0 ![3, 4, 0] (some 0) 0
        alpha0ce alpha1ce 1 1 =
      (![9765625 / 9761729, 0, 0],
       ![12500 / 9761729, 337500 / 9761729, 0]) := by
  have h1 : dipole_mags_gened ctOne 0 0 ![3, 4, 0] (some 0) 0
        alpha0ce alpha1ce 1 1 =
      ((Ace⁻¹ * alpha0ce).mulVec fun j => if j = 0 then 1 else 0,
       (alpha1ce * Gce).mulVec
         ((Ace⁻¹ * alpha0ce).mulVec fun j => if j = 0 then 1 else 0)) := by
    simp only [dipole_mags_gened, rotate_molecule, Option.getD_some]
    rw [G_ce, lab_frame_zero, lab_frame_zero, drive_field_zero_one, XA_ce]
  rw [h1, Ainv_ce]
  refine Prod.ext ?_ ?_ <;>
    · funext i
      fin_cases i <;>
        · simp [Bce, alpha0ce, alpha1ce, Gce, Matrix.mulVec,
            Matrix.mul_apply, Matrix.dotProduct, Fin.sum_univ_three,
            Matrix.one_fin_three, Matrix.add_apply, Matrix.vecHead,
            Matrix.vecTail]
          try norm_num

/-! ### The both-driven coupled solver -/

lemma inv_mulVec_cancel (A : Matrix (Fin 3) (Fin 3) ℂ) (h : IsUnit A.det)
    (v : Fin 3 → ℂ) : A.mulVec (A⁻¹.mulVec v) = v := by
  rw [Matrix.mulVec_mulVec, Matrix.mul_nonsing_inv _ h, Matrix.one_mulVec]

lemma coupled_p0_self_consistent
    (alpha_0 alpha_1 G_d : Matrix (Fin 3) (Fin 3) ℂ) (E : Fin 3 → ℂ)
    (h : IsUnit (1 - alpha_0 * G_d * alpha_1 * G_d).det) :
    ((1 - alpha_0 * G_d * alpha_1 * G_d)⁻¹ *
        (alpha_0 * (1 + G_d * alpha_1))).mulVec E =
      alpha_0.mulVec (E + G_d.mulVec (alpha_1.mulVec (E + G_d.mulVec
        (((1 - alpha_0 * G_d * alpha_1 * G_d)⁻¹ *
          (alpha_0 * (1 + G_d * alpha_1))).mulVec E)))) := by
  set p0 := ((1 - alpha_0 * G_d * alpha_1 * G_d)⁻¹ *
      (alpha_0 * (1 + G_d * alpha_1))).mulVec E with hp0
  have key : (1 - alpha_0 * G_d * alpha_1 * G_d).mulVec p0 =
      (alpha_0 * (1 + G_d * alpha_1)).mulVec E := by
    rw [hp0, ← Matrix.mulVec_mulVec, Matrix.mulVec_mulVec,
      Matrix.mul_nonsing_inv _ h, Matrix.one_mulVec]
  have expand :
      alpha_0.mulVec (E + G_d.mulVec (alpha_1.mulVec (E + G_d.mulVec p0))) =
        (alpha_0 * (1 + G_d * alpha_1)).mulVec E +
          (alpha_0 * G_d * alpha_1 * G_d).mulVec p0 := by
    simp only [Matrix.mulVec_add, Matrix.mulVec_mulVec, Matrix.mul_add,
      Matrix.mul_one, Matrix.add_mulVec, Matrix.mul_assoc]
    abel
  rw [expand, ← key, Matrix.sub_mulVec, Matrix.one_mulVec]
  abel

lemma gened_p0_self_consistent
    (alpha_0 alpha_1 G_d : Matrix (Fin 3) (Fin 3) ℂ) (E : Fin 3 → ℂ)
    (h : IsUnit (1 - alpha_0 * G_d * alpha_1 * G_d).det) :
    ((1 - alpha_0 * G_d * alpha_1 * G_d)⁻¹ * alpha_0).mulVec E =
      alpha_0.mulVec (E + G_d.mulVec ((alpha_1 * G_d).mulVec
        (((1 - alpha_0 * G_d * alpha_1 * G_d)⁻¹ * alpha_0).mulVec E))) := by
  set p0 := ((1 - alpha_0 * G_d * alpha_1 * G_d)⁻¹ * alpha_0).mulVec E with hp0
  have key : (1 - alpha_0 * G_d * alpha_1 * G_d).mulVec p0 =
      alpha_0.mulVec E := by
    rw [hp0, ← Matrix.mulVec_mulVec, Matrix.mulVec_mulVec,
      Matrix.mul_nonsing_inv _ h, Matrix.one_mulVec]
  have expand :
      alpha_0.mulVec (E + G_d.mulVec ((alpha_1 * G_d).mulVec p0)) =
        alpha_0.mulVec E + (alpha_0 * G_d * alpha_1 * G_d).mulVec p0 := by
    simp only [Matrix.mulVec_add, Matrix.mulVec_mulVec, Matrix.mul_assoc]
  rw [expand, ← key, Matrix.sub_mulVec, Matrix.one_mulVec]
  abel

/-- C1 (amended): the pair returned by `coupled_dip_mags_both_driven` is
`p0 = M α₀ (I + G α₁) E` and `p1 = M α₁ (I + G α₀) E` with the single
round-trip inverse `M = (I - α₀ G α₁ G)⁻¹`; the returned `p0` is the
self-consistent emitter moment (it satisfies
`p0 = α₀(E + G·α₁(E + G·p0))`), but the returned `p1` is not in general
the vector `α₁(E + G·p0)` that would complete the coupled system. -/
theorem claim_C1_amended_both_driven_closed_form (ct : Consts)
    (mol_angle plas_angle : ℝ) (d_col : Fin 3 → ℝ) (E_d_angle : Option ℝ)
    (drive_hbar_w : ℝ) (alpha0_diag alpha1_diag : Matrix (Fin 3) (Fin 3) ℂ)
    (n_b : ℝ) (drive_amp : ℂ)
    (h : IsUnit (1 -
        lab_frame mol_angle alpha0_diag * G ct drive_hbar_w d_col n_b *
        lab_frame plas_angle alpha1_diag * G ct drive_hbar_w d_col n_b).det) :
    coupled_dip_mags_both_driven ct mol_angle plas_angle d_col E_d_angle
        drive_hbar_w alpha0_diag alpha1_diag n_b drive_amp =
      (((1 -
          lab_frame mol_angle alpha0_diag * G ct drive_hbar_w d_col n_b *
          lab_frame plas_angle alpha1_diag * G ct drive_hbar_w d_col n_b)⁻¹ *
          (lab_frame mol_angle alpha0_diag *
            (1 + G ct drive_hbar_w d_col n_b *
              lab_frame plas_angle alpha1_diag))).mulVec
        (drive_field (E_d_angle.getD mol_angle) drive_amp),
       ((1 -
          lab_frame mol_angle alpha0_diag * G ct drive_hbar_w d_col n_b *
          lab_frame plas_angle alpha1_diag * G ct drive_hbar_w d_col n_b)⁻¹ *
          (lab_frame plas_angle alpha1_diag *
            (1 + G ct drive_hbar_w d_col n_b *
              lab_frame mol_angle alpha0_diag))).mulVec
        (drive_field (E_d_angle.getD mol_angle) drive_amp)) ∧
    (coupled_dip_mags_both_driven ct mol_angle plas_angle d_col E_d_angle
        drive_hbar_w alpha0_diag alpha1_diag n_b drive_amp).1 =
      (lab_frame mol_angle alpha0_diag).mulVec
        (drive_field (E_d_angle.getD mol_angle) drive_amp +
         (G ct drive_hbar_w d_col n_b).mulVec
           ((lab_frame plas_angle alpha1_diag).mulVec
             (drive_field (E_d_angle.getD mol_angle) drive_amp +
              (G ct drive_hbar_w d_col n_b).mulVec
                (coupled_dip_mags_both_driven ct mol_angle plas_angle d_col
                  E_d_angle drive_hbar_w alpha0_diag alpha1_diag n_b
                  drive_amp).1))) := by
  exact ⟨rfl, coupled_p0_self_consistent _ _ _ _ h⟩

/-- Witness for `claim_C1_amended_both_driven_closed_form` at the concrete
input `mol_angle = plas_angle = 0`, `d = (3,4,0)`, `ħω = 0`,
`α₀ = diag(1,0,0)`, `α₁ = diag(2,3,5)`, `n_b = 1`, unit amplitude. -/
theorem claim_C1_amended_both_driven_closed_form_witness :
    IsUnit ((1 : Matrix (Fin 3) (Fin 3) ℂ) -
        lab_frame 0 alpha0ce * G ctOne 0 ![3, 4, 0] 1 *
        lab_frame 0 alpha1ce * G ctOne 0 ![3, 4, 0] 1).det ∧
    (coupled_dip_mags_both_driven ctOne 0 0 ![3, 4, 0] (some 0) 0
        alpha0ce alpha1ce 1 1 =
      (((1 -
          lab_frame 0 alpha0ce * G ctOne 0 ![3, 4, 0] 1 *
          lab_frame 0 alpha1ce * G ctOne 0 ![3, 4, 0] 1)⁻¹ *
          (lab_frame 0 alpha0ce *
            (1 + G ctOne 0 ![3, 4, 0] 1 * lab_frame 0 alpha1ce))).mulVec
        (drive_field ((some (0 : ℝ)).getD 0) 1),
       ((1 -
          lab_frame 0 alpha0ce * G ctOne 0 ![3, 4, 0] 1 *
          lab_frame 0 alpha1ce * G ctOne 0 ![3, 4, 0] 1)⁻¹ *
          (lab_frame 0 alpha1ce *
            (1 + G ctOne 0 ![3, 4, 0] 1 * lab_frame 0 alpha0ce))).mulVec
        (drive_field ((some (0 : ℝ)).getD 0) 1)) ∧
    (coupled_dip_mags_both_driven ctOne 0 0 ![3, 4, 0] (some 0) 0
        alpha0ce alpha1ce 1 1).1 =
      (lab_frame 0 alpha0ce).mulVec
        (drive_field ((some (0 : ℝ)).getD 0) 1 +
         (G ctOne 0 ![3, 4, 0] 1).mulVec
           ((lab_frame 0 alpha1ce).mulVec
             (drive_field ((some (0 : ℝ)).getD 0) 1 +
              (G ctOne 0 ![3, 4, 0] 1).mulVec
                (coupled_dip_mags_both_driven ctOne 0 0 ![3, 4, 0] (some 0) 0
                  alpha0ce alpha1ce 1 1).1)))) := by
  have hu : IsUnit ((1 : Matrix (Fin 3) (Fin 3) ℂ) -
      lab_frame 0 alpha0ce * G ctOne 0 ![3, 4, 0] 1 *
      lab_frame 0 alpha1ce * G ctOne 0 ![3, 4, 0] 1).det := by
    rw [lab_frame_zero, lab_frame_zero, G_ce, XA_ce]
    exact detA_ce_unit
  exact ⟨hu, claim_C1_amended_both_driven_closed_form ctOne 0 0 ![3, 4, 0]
    (some 0) 0 alpha0ce alpha1ce 1 1 hu⟩

/-- C1 counterexample: as stated the claim fails — at a concrete invertible input the
pair returned by `coupled_dip_mags_both_driven` does not satisfy the
self-consistency equations `p0 = α₀(E + G p1)`, `p1 = α₁(E + G p0)`. -/
theorem claim_C1_counterexample :
    IsUnit ((1 : Matrix (Fin 3) (Fin 3) ℂ) -
        lab_frame 0 alpha0ce * G ctOne 0 ![3, 4, 0] 1 *
        lab_frame 0 alpha1ce * G ctOne 0 ![3, 4, 0] 1).det ∧
    ¬ ((coupled_dip_mags_both_driven ctOne 0 0 ![3, 4, 0] (some 0) 0
          alpha0ce alpha1ce 1 1).1 =
        (lab_frame 0 alpha0ce).mulVec
          (drive_field 0 1 + (G ctOne 0 ![3, 4, 0] 1).mulVec
            (coupled_dip_mags_both_driven ctOne 0 0 ![3, 4, 0] (some 0) 0
              alpha0ce alpha1ce 1 1).2) ∧
       (coupled_dip_mags_both_driven ctOne 0 0 ![3, 4, 0] (some 0) 0
          alpha0ce alpha1ce 1 1).2 =
        (lab_frame 0 alpha1ce).mulVec
          (drive_field 0 1 + (G ctOne 0 ![3, 4, 0] 1).mulVec
            (coupled_dip_mags_both_driven ctOne 0 0 ![3, 4, 0] (some 0) 0
              alpha0ce alpha1ce 1 1).1)) := by
  constructor
  · rw [lab_frame_zero, lab_frame_zero, G_ce, XA_ce]
    exact detA_ce_unit
  · rintro ⟨-, h2⟩
    rw [coupled_ce, lab_frame_zero, G_ce, drive_field_zero_one] at h2
    have h3 := congrFun h2 1
    simp [Matrix.mulVec, Matrix.dotProduct, Fin.sum_univ_three, alpha1ce,
      Gce, Matrix.vecHead, Matrix.vecTail, Pi.add_apply] at h3
    norm_num at h3

/-- C2 (amended): `dipole_mags_gened` returns the emitter-only-driven
solution `p0 = M α₀ E`, `p1 = α₁ G p0` (with
`M = (I - α₀ G α₁ G)⁻¹`), which satisfies `p0 = α₀(E + G p1)` and
`p1 = α₁ (G p0)`; it is not extensionally equal to
`coupled_dip_mags_both_driven`, whose drive reaches both dipoles. -/
theorem claim_C2_amended_gened_closed_form (ct : Consts)
    (mol_angle plas_angle : ℝ) (d_col : Fin 3 → ℝ) (E_d_angle : Option ℝ)
    (drive_hbar_w : ℝ) (alpha0_diag alpha1_diag : Matrix (Fin 3) (Fin 3) ℂ)
    (n_b : ℝ) (drive_amp : ℂ)
    (h : IsUnit (1 -
        lab_frame mol_angle alpha0_diag * G ct drive_hbar_w d_col n_b *
        lab_frame plas_angle alpha1_diag * G ct drive_hbar_w d_col n_b).det) :
    dipole_mags_gened ct mol_angle plas_angle d_col E_d_angle drive_hbar_w
        alpha0_diag alpha1_diag n_b drive_amp =
      (((1 -
          lab_frame mol_angle alpha0_diag * G ct drive_hbar_w d_col n_b *
          lab_frame plas_angle alpha1_diag * G ct drive_hbar_w d_col n_b)⁻¹ *
          lab_frame mol_angle alpha0_diag).mulVec
        (drive_field (E_d_angle.getD mol_angle) drive_amp),
       (lab_frame plas_angle alpha1_diag * G ct drive_hbar_w d_col n_b).mulVec
        (((1 -
          lab_frame mol_angle alpha0_diag * G ct drive_hbar_w d_col n_b *
          lab_frame plas_angle alpha1_diag * G ct drive_hbar_w d_col n_b)⁻¹ *
          lab_frame mol_angle alpha0_diag).mulVec
          (drive_field (E_d_angle.getD mol_angle) drive_amp))) ∧
    (dipole_mags_gened ct mol_angle plas_angle d_col E_d_angle drive_hbar_w
        alpha0_diag alpha1_diag n_b drive_amp).1 =
      (lab_frame mol_angle alpha0_diag).mulVec
        (drive_field (E_d_angle.getD mol_angle) drive_amp +
         (G ct drive_hbar_w d_col n_b).mulVec
           (dipole_mags_gened ct mol_angle plas_angle d_col E_d_angle
             drive_hbar_w alpha0_diag alpha1_diag n_b drive_amp).2) ∧
    (dipole_mags_gened ct mol_angle plas_angle d_col E_d_angle drive_hbar_w
        alpha0_diag alpha1_diag n_b drive_amp).2 =
      (lab_frame plas_angle alpha1_diag * G ct drive_hbar_w d_col n_b).mulVec
        (dipole_mags_gened ct mol_angle plas_angle d_col E_d_angle
          drive_hbar_w alpha0_diag alpha1_diag n_b drive_amp).1 := by
  exact ⟨rfl, gened_p0_self_consistent _ _ _ _ h, rfl⟩

/-- Witness for `claim_C2_amended_gened_closed_form` at the concrete
input of the counterexample. -/
theorem claim_C2_amended_gened_closed_form_witness :
    IsUnit ((1 : Matrix (Fin 3) (Fin 3) ℂ) -
        lab_frame 0 alpha0ce * G ctOne 0 ![3, 4, 0] 1 *
        lab_frame 0 alpha1ce * G ctOne 0 ![3, 4, 0] 1).det ∧
    (dipole_mags_gened ctOne 0 0 ![3, 4, 0] (some 0) 0
        alpha0ce alpha1ce 1 1 =
      (((1 -
          lab_frame 0 alpha0ce * G ctOne 0 ![3, 4, 0] 1 *
          lab_frame 0 alpha1ce * G ctOne 0 ![3, 4, 0] 1)⁻¹ *
          lab_frame 0 alpha0ce).mulVec (drive_field ((some (0 : ℝ)).getD 0) 1),
       (lab_frame 0 alpha1ce * G ctOne 0 ![3, 4, 0] 1).mulVec
        (((1 -
          lab_frame 0 alpha0ce * G ctOne 0 ![3, 4, 0] 1 *
          lab_frame 0 alpha1ce * G ctOne 0 ![3, 4, 0] 1)⁻¹ *
          lab_frame 0 alpha0ce).mulVec
          (drive_field ((some (0 : ℝ)).getD 0) 1))) ∧
    (dipole_mags_gened ctOne 0 0 ![3, 4, 0] (some 0) 0
        alpha0ce alpha1ce 1 1).1 =
      (lab_frame 0 alpha0ce).mulVec
        (drive_field ((some (0 : ℝ)).getD 0) 1 +
         (G ctOne 0 ![3, 4, 0] 1).mulVec
           (dipole_mags_gened ctOne 0 0 ![3, 4, 0] (some 0) 0
             alpha0ce alpha1ce 1 1).2) ∧
    (dipole_mags_gened ctOne 0 0 ![3, 4, 0] (some 0) 0
        alpha0ce alpha1ce 1 1).2 =
      (lab_frame 0 alpha1ce * G ctOne 0 ![3, 4, 0] 1).mulVec
        (dipole_mags_gened ctOne 0 0 ![3, 4, 0] (some 0) 0
          alpha0ce alpha1ce 1 1).1) := by
  have hu : IsUnit ((1 : Matrix (Fin 3) (Fin 3) ℂ) -
      lab_frame 0 alpha0ce * G ctOne 0 ![3, 4, 0] 1 *
      lab_frame 0 alpha1ce * G ctOne 0 ![3, 4, 0] 1).det := by
    rw [lab_frame_zero, lab_frame_zero, G_ce, XA_ce]
    exact detA_ce_unit
  exact ⟨hu, claim_C2_amended_gened_closed_form ctOne 0 0 ![3, 4, 0]
    (some 0) 0 alpha0ce alpha1ce 1 1 hu⟩

/-- C2 counterexample: as stated the claim fails — at a concrete input the emitter
moments returned by `dipole_mags_gened` and
`coupled_dip_mags_both_driven` differ. -/
theorem claim_C2_counterexample :
    (dipole_mags_gened ctOne 0 0 ![3, 4, 0] (some 0) 0
        alpha0ce alpha1ce 1 1).1 0 ≠
      (coupled_dip_mags_both_driven ctOne 0 0 ![3, 4, 0] (some 0) 0
        alpha0ce alpha1ce 1 1).1 0 := by
  rw [gened_ce, coupled_ce]
  norm_num

/-! ### The depolarization-factor quadrature -/

lemma one_div_sub_bounds (u v : ℝ) (hu : 0 < u) (huv : u ≤ v) :
    (v ^ 2 - u ^ 2) / (2 * v ^ 3) ≤ 1 / u - 1 / v ∧
    1 / u - 1 / v ≤ (v ^ 2 - u ^ 2) / (2 * u ^ 3) := by
  have hv : 0 < v := lt_of_lt_of_le hu huv
  have hX : 0 ≤ v ^ 2 - u ^ 2 := by nlinarith
  have hden : 0 < u * v * (u + v) := by positivity
  have key : 1 / u - 1 / v = (v ^ 2 - u ^ 2) / (u * v * (u + v)) := by
    field_simp
    ring
  constructor
  · rw [key, div_le_div_iff (by positivity) hden]
    have h3 : u * v * (u + v) ≤ 2 * v ^ 3 := by nlinarith
    exact mul_le_mul_of_nonneg_left h3 hX
  · rw [key, div_le_div_iff hden (by positivity)]
    have h4 : 2 * u ^ 3 ≤ u * v * (u + v) := by nlinarith
    exact mul_le_mul_of_nonneg_left h4 hX

lemma sqrt_triple_prod (p q r : ℝ) (hp : 0 ≤ p) (hq : 0 ≤ q) :
    Real.sqrt (p * q * r) = Real.sqrt p * Real.sqrt q * Real.sqrt r := by
  rw [Real.sqrt_mul (by positivity), Real.sqrt_mul hp]

lemma interval_bound (a b c x y : ℝ) (ha : 0 < a) (hb : 0 < b) (hc : 0 < c)
    (hx : 0 ≤ x) (hxy : x ≤ y) :
    (y - x) * ellipsoid_g a b c y ≤
        ellipsoid_h a b c x - ellipsoid_h a b c y ∧
    ellipsoid_h a b c x - ellipsoid_h a b c y ≤
        (y - x) * ellipsoid_g a b c x := by
  have hy : 0 ≤ y := le_trans hx hxy
  set uA := Real.sqrt (a ^ 2 + x) with huAdef
  set uB := Real.sqrt (b ^ 2 + x) with huBdef
  set uC := Real.sqrt (c ^ 2 + x) with huCdef
  set vA := Real.sqrt (a ^ 2 + y) with hvAdef
  set vB := Real.sqrt (b ^ 2 + y) with hvBdef
  set vC := Real.sqrt (c ^ 2 + y) with hvCdef
  have huA : 0 < uA := Real.sqrt_pos.mpr (by positivity)
  have huB : 0 < uB := Real.sqrt_pos.mpr (by positivity)
  have huC : 0 < uC := Real.sqrt_pos.mpr (by positivity)
  have hvA : 0 < vA := Real.sqrt_pos.mpr (by positivity)
  have hvB : 0 < vB := Real.sqrt_pos.mpr (by positivity)
  have hvC : 0 < vC := Real.sqrt_pos.mpr (by positivity)
  have hAB : uA ≤ vA := Real.sqrt_le_sqrt (by linarith)
  have hBB : uB ≤ vB := Real.sqrt_le_sqrt (by linarith)
  have hCB : uC ≤ vC := Real.sqrt_le_sqrt (by linarith)
  have huA2 : uA ^ 2 = a ^ 2 + x := Real.sq_sqrt (by positivity)
  have huB2 : uB ^ 2 = b ^ 2 + x := Real.sq_sqrt (by positivity)
  have huC2 : uC ^ 2 = c ^ 2 + x := Real.sq_sqrt (by positivity)
  have hvA2 : vA ^ 2 = a ^ 2 + y := Real.sq_sqrt (by positivity)
  have hvB2 : vB ^ 2 = b ^ 2 + y := Real.sq_sqrt (by positivity)
  have hvC2 : vC ^ 2 = c ^ 2 + y := Real.sq_sqrt (by positivity)
  have hDA : vA ^ 2 - uA ^ 2 = y - x := by rw [huA2, hvA2]; ring
  have hDB : vB ^ 2 - uB ^ 2 = y - x := by rw [huB2, hvB2]; ring
  have hDC : vC ^ 2 - uC ^ 2 = y - x := by rw [huC2, hvC2]; ring
  have hD : 0 ≤ y - x := by linarith
  have hhx : ellipsoid_h a b c x = 2 / (uA * uB * uC) := by
    rw [ellipsoid_h, sqrt_triple_prod _ _ _ (by positivity) (by positivity)]
  have hhy : ellipsoid_h a b c y = 2 / (vA * vB * vC) := by
    rw [ellipsoid_h, sqrt_triple_prod _ _ _ (by positivity) (by positivity)]
  have hgx : ellipsoid_g a b c x =
      1 / (uA ^ 2 * (uA * uB * uC)) + 1 / (uB ^ 2 * (uB * uC * uA)) +
        1 / (uC ^ 2 * (uC * uA * uB)) := by
    rw [ellipsoid_g, ellipsoid_f, ellipsoid_f, ellipsoid_f,
      sqrt_triple_prod _ _ _ (by positivity) (by positivity),
      sqrt_triple_prod _ _ _ (by positivity) (by positivity),
      sqrt_triple_prod _ _ _ (by positivity) (by positivity),
      huA2, huB2, huC2]
  have hgy : ellipsoid_g a b c y =
      1 / (vA ^ 2 * (vA * vB * vC)) + 1 / (vB ^ 2 * (vB * vC * vA)) +
        1 / (vC ^ 2 * (vC * vA * vB)) := by
    rw [ellipsoid_g, ellipsoid_f, ellipsoid_f, ellipsoid_f,
      sqrt_triple_prod _ _ _ (by positivity) (by positivity),
      sqrt_triple_prod _ _ _ (by positivity) (by positivity),
      sqrt_triple_prod _ _ _ (by positivity) (by positivity),
      hvA2, hvB2, hvC2]
  have hsubA := one_div_sub_bounds uA vA huA hAB
  have hsubB := one_div_sub_bounds uB vB huB hBB
  have hsubC := one_div_sub_bounds uC vC huC hCB
  rw [hDA] at hsubA
  rw [hDB] at hsubB
  rw [hDC] at hsubC
  have htel : ellipsoid_h a b c x - ellipsoid_h a b c y =
      2 * ((1 / uA - 1 / vA) * (1 / (uB * uC))) +
      2 * ((1 / uB - 1 / vB) * (1 / (vA * uC))) +
      2 * ((1 / uC - 1 / vC) * (1 / (vA * vB))) := by
    rw [hhx, hhy]
    field_simp
    ring
  constructor
  · rw [htel, hgy]
    have h1 : (1 : ℝ) / (vB * vC) ≤ 1 / (uB * uC) :=
      one_div_le_one_div_of_le (by positivity)
        (mul_le_mul hBB hCB (le_of_lt huC) (le_of_lt hvB))
    have h2 : (1 : ℝ) / (vA * vC) ≤ 1 / (vA * uC) :=
      one_div_le_one_div_of_le (by positivity)
        (mul_le_mul_of_nonneg_left hCB (le_of_lt hvA))
    have pA : (y - x) / (2 * vA ^ 3) * (1 / (vB * vC)) ≤
        (1 / uA - 1 / vA) * (1 / (uB * uC)) :=
      mul_le_mul hsubA.1 h1 (by positivity)
        (le_trans (by positivity) hsubA.1)
    have pB : (y - x) / (2 * vB ^ 3) * (1 / (vA * vC)) ≤
        (1 / uB - 1 / vB) * (1 / (vA * uC)) :=
      mul_le_mul hsubB.1 h2 (by positivity)
        (le_trans (by positivity) hsubB.1)
    have pC : (y - x) / (2 * vC ^ 3) * (1 / (vA * vB)) ≤
        (1 / uC - 1 / vC) * (1 / (vA * vB)) :=
      mul_le_mul_of_nonneg_right hsubC.1 (by positivity)
    have hEq : (y - x) *
        (1 / (vA ^ 2 * (vA * vB * vC)) + 1 / (vB ^ 2 * (vB * vC * vA)) +
          1 / (vC ^ 2 * (vC * vA * vB))) =
        2 * ((y - x) / (2 * vA ^ 3) * (1 / (vB * vC))) +
        2 * ((y - x) / (2 * vB ^ 3) * (1 / (vA * vC))) +
        2 * ((y - x) / (2 * vC ^ 3) * (1 / (vA * vB))) := by
      simp only [div_eq_mul_inv, mul_inv, inv_pow]
      ring
    rw [hEq]
    linarith [pA, pB, pC]
  · rw [htel, hgx]
    have h1 : (1 : ℝ) / (vA * uC) ≤ 1 / (uA * uC) :=
      one_div_le_one_div_of_le (by positivity)
        (mul_le_mul_of_nonneg_right hAB (le_of_lt huC))
    have h2 : (1 : ℝ) / (vA * vB) ≤ 1 / (uA * uB) :=
      one_div_le_one_div_of_le (by positivity)
        (mul_le_mul hAB hBB (le_of_lt huB) (le_of_lt hvA))
    have pA : 2 * ((1 / uA - 1 / vA) * (1 / (uB * uC))) ≤
        2 * ((y - x) / (2 * uA ^ 3) * (1 / (uB * uC))) := by
      have := mul_le_mul_of_nonneg_right hsubA.2
        (by positivity : (0:ℝ) ≤ 1 / (uB * uC))
      linarith
    have pB : 2 * ((1 / uB - 1 / vB) * (1 / (vA * uC))) ≤
        2 * ((y - x) / (2 * uB ^ 3) * (1 / (uA * uC))) := by
      have := mul_le_mul hsubB.2 h1 (by positivity)
        (by positivity : (0:ℝ) ≤ (y - x) / (2 * uB ^ 3))
      linarith
    have pC : 2 * ((1 / uC - 1 / vC) * (1 / (vA * vB))) ≤
        2 * ((y - x) / (2 * uC ^ 3) * (1 / (uA * uB))) := by
      have := mul_le_mul hsubC.2 h2 (by positivity)
        (by positivity : (0:ℝ) ≤ (y - x) / (2 * uC ^ 3))
      linarith
    have hEq : (y - x) *
        (1 / (uA ^ 2 * (uA * uB * uC)) + 1 / (uB ^ 2 * (uB * uC * uA)) +
          1 / (uC ^ 2 * (uC * uA * uB))) =
        2 * ((y - x) / (2 * uA ^ 3) * (1 / (uB * uC))) +
        2 * ((y - x) / (2 * uB ^ 3) * (1 / (uA * uC))) +
        2 * ((y - x) / (2 * uC ^ 3) * (1 / (uA * uB))) := by
      simp only [div_eq_mul_inv, mul_inv, inv_pow]
      ring
    rw [hEq]
    linarith [pA, pB, pC]

lemma qgrid_nonneg (j : ℕ) : 0 ≤ qgrid j := by
  rw [qgrid]
  positivity

lemma qgrid_mono (j : ℕ) : qgrid j ≤ qgrid (j + 1) := by
  rw [qgrid, qgrid]
  gcongr
  linarith

lemma qgrid_step (j : ℕ) : qgrid (j + 1) - qgrid j = 10000 / 99999 := by
  rw [qgrid, qgrid]
  push_cast
  ring

lemma qgrid_zero : qgrid 0 = 0 := by
  rw [qgrid]
  norm_num

lemma qgrid_top : qgrid 99999 = 10000 := by
  rw [qgrid]
  norm_num

lemma ellipsoid_g_nonneg (a b c q : ℝ) (hq : 0 ≤ q) (ha : 0 < a)
    (hb : 0 < b) (hc : 0 < c) : 0 ≤ ellipsoid_g a b c q := by
  rw [ellipsoid_g, ellipsoid_f, ellipsoid_f, ellipsoid_f]
  have h1 : (0:ℝ) ≤ 1 / ((a ^ 2 + q) *
      Real.sqrt ((a ^ 2 + q) * (b ^ 2 + q) * (c ^ 2 + q))) := by positivity
  have h2 : (0:ℝ) ≤ 1 / ((b ^ 2 + q) *
      Real.sqrt ((b ^ 2 + q) * (c ^ 2 + q) * (a ^ 2 + q))) := by positivity
  have h3 : (0:ℝ) ≤ 1 / ((c ^ 2 + q) *
      Real.sqrt ((c ^ 2 + q) * (a ^ 2 + q) * (b ^ 2 + q))) := by positivity
  linarith

/-- The trapezoid sum of `ellipsoid_g` over the quadrature grid differs
from the exact endpoint difference of `ellipsoid_h` by at most half a
step times the left endpoint value. -/
lemma trapz_vs_h (a b c : ℝ) (ha : 0 < a) (hb : 0 < b) (hc : 0 < c) :
    |(∑ j ∈ Finset.range 99999,
        10000 / 99999 *
          (ellipsoid_g a b c (qgrid j) + ellipsoid_g a b c (qgrid (j + 1))) / 2)
      - (ellipsoid_h a b c 0 - ellipsoid_h a b c 10000)| ≤
    10000 / 99999 * ellipsoid_g a b c 0 / 2 := by
  have tele : ∑ j ∈ Finset.range 99999,
      (ellipsoid_h a b c (qgrid j) - ellipsoid_h a b c (qgrid (j + 1))) =
      ellipsoid_h a b c (qgrid 0) - ellipsoid_h a b c (qgrid 99999) :=
    Finset.sum_range_sub' (fun j => ellipsoid_h a b c (qgrid j)) 99999
  have hlow : ∀ j ∈ Finset.range 99999,
      10000 / 99999 * ellipsoid_g a b c (qgrid (j + 1)) ≤
        ellipsoid_h a b c (qgrid j) - ellipsoid_h a b c (qgrid (j + 1)) := by
    intro j _
    have h := (interval_bound a b c (qgrid j) (qgrid (j + 1)) ha hb hc
      (qgrid_nonneg j) (qgrid_mono j)).1
    rwa [qgrid_step] at h
  have hupp : ∀ j ∈ Finset.range 99999,
      ellipsoid_h a b c (qgrid j) - ellipsoid_h a b c (qgrid (j + 1)) ≤
        10000 / 99999 * ellipsoid_g a b c (qgrid j) := by
    intro j _
    have h := (interval_bound a b c (qgrid j) (qgrid (j + 1)) ha hb hc
      (qgrid_nonneg j) (qgrid_mono j)).2
    rwa [qgrid_step] at h
  have hsumlow : ∑ j ∈ Finset.range 99999,
      10000 / 99999 * ellipsoid_g a b c (qgrid (j + 1)) ≤
      ellipsoid_h a b c 0 - ellipsoid_h a b c 10000 := by
    have := Finset.sum_le_sum hlow
    rw [tele, qgrid_zero, qgrid_top] at this
    exact this
  have hsumupp : ellipsoid_h a b c 0 - ellipsoid_h a b c 10000 ≤
      ∑ j ∈ Finset.range 99999,
        10000 / 99999 * ellipsoid_g a b c (qgrid j) := by
    have := Finset.sum_le_sum hupp
    rw [tele, qgrid_zero, qgrid_top] at this
    exact this
  have hshift : ∑ j ∈ Finset.range 99999, ellipsoid_g a b c (qgrid (j + 1)) =
      (∑ j ∈ Finset.range 99999, ellipsoid_g a b c (qgrid j))
        - ellipsoid_g a b c (qgrid 0) + ellipsoid_g a b c (qgrid 99999) := by
    have e1 := Finset.sum_range_succ' (fun j => ellipsoid_g a b c (qgrid j)) 99999
    have e2 := Finset.sum_range_succ (fun j => ellipsoid_g a b c (qgrid j)) 99999
    rw [e2] at e1
    linarith
  have hS : ∑ j ∈ Finset.range 99999,
      10000 / 99999 *
        (ellipsoid_g a b c (qgrid j) + ellipsoid_g a b c (qgrid (j + 1))) / 2 =
      10000 / 99999 / 2 *
        ((∑ j ∈ Finset.range 99999, ellipsoid_g a b c (qgrid j)) +
         (∑ j ∈ Finset.range 99999, ellipsoid_g a b c (qgrid (j + 1)))) := by
    rw [mul_add, Finset.mul_sum, Finset.mul_sum, ← Finset.sum_add_distrib]
    apply Finset.sum_congr rfl
    intro j _
    ring
  have hg0 : 0 ≤ ellipsoid_g a b c (qgrid 0) :=
    ellipsoid_g_nonneg a b c _ (qgrid_nonneg 0) ha hb hc
  have hgN : 0 ≤ ellipsoid_g a b c (qgrid 99999) :=
    ellipsoid_g_nonneg a b c _ (qgrid_nonneg 99999) ha hb hc
  rw [hS, abs_le]
  rw [← Finset.mul_sum] at hsumlow hsumupp
  rw [qgrid_zero] at hshift hg0
  constructor
  · linarith [hshift, hsumlow, hsumupp, hg0, hgN]
  · linarith [hshift, hsumlow, hsumupp, hg0, hgN]

lemma ellipsoid_L_i_one (a b c : ℝ) :
    ellipsoid_L_i ctOne a b c =
      a * b * c / 2 * ∑ j ∈ Finset.range 99999,
        10000 / 99999 *
          (ellipsoid_f a b c (qgrid j) + ellipsoid_f a b c (qgrid (j + 1))) / 2 := by
  simp only [ellipsoid_L_i]
  refine congrArg (fun S => a * b * c / 2 * S)
    (Finset.sum_congr rfl fun j _ => ?_)
  have hq : ∀ m : ℕ, 10000 * (m : ℝ) / 99999 * ctOne.nm ^ 2 = qgrid m := by
    intro m
    rw [qgrid, ctOne]
    norm_num
  simp only [ellipsoid_f]
  rw [hq j, hq (j + 1), qgrid_step]

lemma L_sum_unit_eq :
    ellipsoid_L_i ctOne 44 20 20 + ellipsoid_L_i ctOne 20 20 44 +
      ellipsoid_L_i ctOne 20 44 20 =
    8800 * ∑ j ∈ Finset.range 99999,
      10000 / 99999 *
        (ellipsoid_g 44 20 20 (qgrid j) + ellipsoid_g 44 20 20 (qgrid (j + 1))) / 2 := by
  rw [ellipsoid_L_i_one, ellipsoid_L_i_one, ellipsoid_L_i_one]
  rw [show (44 * 20 * 20 / 2 : ℝ) = 8800 by norm_num,
    show (20 * 20 * 44 / 2 : ℝ) = 8800 by norm_num,
    show (20 * 44 * 20 / 2 : ℝ) = 8800 by norm_num]
  rw [← mul_add, ← mul_add, ← Finset.sum_add_distrib, ← Finset.sum_add_distrib]
  refine congrArg (fun S => (8800 : ℝ) * S)
    (Finset.sum_congr rfl fun j _ => ?_)
  simp only [ellipsoid_g]
  ring

lemma h44_zero : ellipsoid_h 44 20 20 0 = 1 / 8800 := by
  rw [ellipsoid_h,
    show ((44 : ℝ) ^ 2 + 0) * ((20 : ℝ) ^ 2 + 0) * ((20 : ℝ) ^ 2 + 0) =
      17600 ^ 2 by norm_num,
    Real.sqrt_sq (by norm_num : (0 : ℝ) ≤ 17600)]
  norm_num

lemma h44_top_bounds :
    0 ≤ ellipsoid_h 44 20 20 10000 ∧
    ellipsoid_h 44 20 20 10000 ≤ 2 / 1136000 := by
  rw [ellipsoid_h,
    show ((44 : ℝ) ^ 2 + 10000) * ((20 : ℝ) ^ 2 + 10000) *
      ((20 : ℝ) ^ 2 + 10000) = 1290997760000 by norm_num]
  constructor
  · positivity
  · have hs2 : (1136000 : ℝ) ≤ Real.sqrt 1290997760000 := by
      calc (1136000 : ℝ) = Real.sqrt (1136000 ^ 2) :=
            (Real.sqrt_sq (by norm_num)).symm
        _ ≤ Real.sqrt 1290997760000 := Real.sqrt_le_sqrt (by norm_num)
    gcongr

lemma g44_zero :
    ellipsoid_g 44 20 20 0 = 1 / 34073600 + 1 / 7040000 + 1 / 7040000 := by
  have hsq : Real.sqrt 309760000 = 17600 := by
    rw [show (309760000 : ℝ) = 17600 ^ 2 by norm_num,
      Real.sqrt_sq (by norm_num : (0 : ℝ) ≤ 17600)]
  rw [ellipsoid_g, ellipsoid_f, ellipsoid_f, ellipsoid_f,
    show ((44 : ℝ) ^ 2 + 0) * ((20 : ℝ) ^ 2 + 0) * ((20 : ℝ) ^ 2 + 0) =
      309760000 by norm_num,
    show ((20 : ℝ) ^ 2 + 0) * ((20 : ℝ) ^ 2 + 0) * ((44 : ℝ) ^ 2 + 0) =
      309760000 by norm_num,
    show ((20 : ℝ) ^ 2 + 0) * ((44 : ℝ) ^ 2 + 0) * ((20 : ℝ) ^ 2 + 0) =
      309760000 by norm_num,
    hsq]
  norm_num

lemma L_sum_unit_bound :
    |ellipsoid_L_i ctOne 44 20 20 + ellipsoid_L_i ctOne 20 20 44 +
      ellipsoid_L_i ctOne 20 44 20 - 1| ≤ 0.02 := by
  rw [L_sum_unit_eq]
  have htr := trapz_vs_h 44 20 20 (by norm_num) (by norm_num) (by norm_num)
  rw [h44_zero, g44_zero] at htr
  obtain ⟨h1, h2⟩ := abs_le.mp htr
  obtain ⟨hN0, hNu⟩ := h44_top_bounds
  rw [abs_le]
  constructor
  · linarith
  · linarith

lemma scale_pointwise (s a b c T : ℝ) (hs : 0 ≤ s) :
    1 / (((a * s) ^ 2 + T * s ^ 2) *
        Real.sqrt (((a * s) ^ 2 + T * s ^ 2) * ((b * s) ^ 2 + T * s ^ 2) *
          ((c * s) ^ 2 + T * s ^ 2))) =
      1 / s ^ 5 * ellipsoid_f a b c T := by
  rw [show ((a * s) ^ 2 + T * s ^ 2) * ((b * s) ^ 2 + T * s ^ 2) *
      ((c * s) ^ 2 + T * s ^ 2) =
      (s ^ 3) ^ 2 * ((a ^ 2 + T) * (b ^ 2 + T) * (c ^ 2 + T)) by ring]
  rw [Real.sqrt_mul (by positivity) _, Real.sqrt_sq (by positivity)]
  rw [show (a * s) ^ 2 + T * s ^ 2 = s ^ 2 * (a ^ 2 + T) by ring]
  rw [ellipsoid_f]
  simp only [one_div, mul_inv]
  ring

lemma ellipsoid_L_i_scale (ct : Consts) (h : 0 < ct.nm) (a b c : ℝ) :
    ellipsoid_L_i ct (a * ct.nm) (b * ct.nm) (c * ct.nm) =
      ellipsoid_L_i ctOne a b c := by
  rw [ellipsoid_L_i_one]
  simp only [ellipsoid_L_i]
  have hsum : ∑ j ∈ Finset.range 99999,
      (10000 * ((j : ℕ) + 1 : ℝ) / 99999 * ct.nm ^ 2 -
        10000 * (j : ℝ) / 99999 * ct.nm ^ 2) *
        (1 / (((a * ct.nm) ^ 2 + 10000 * (j : ℝ) / 99999 * ct.nm ^ 2) *
          Real.sqrt (((a * ct.nm) ^ 2 + 10000 * (j : ℝ) / 99999 * ct.nm ^ 2) *
            ((b * ct.nm) ^ 2 + 10000 * (j : ℝ) / 99999 * ct.nm ^ 2) *
            ((c * ct.nm) ^ 2 + 10000 * (j : ℝ) / 99999 * ct.nm ^ 2))) +
         1 / (((a * ct.nm) ^ 2 + 10000 * ((j : ℕ) + 1 : ℝ) / 99999 * ct.nm ^ 2) *
          Real.sqrt (((a * ct.nm) ^ 2 + 10000 * ((j : ℕ) + 1 : ℝ) / 99999 * ct.nm ^ 2) *
            ((b * ct.nm) ^ 2 + 10000 * ((j : ℕ) + 1 : ℝ) / 99999 * ct.nm ^ 2) *
            ((c * ct.nm) ^ 2 + 10000 * ((j : ℕ) + 1 : ℝ) / 99999 * ct.nm ^ 2)))) / 2 =
      ∑ j ∈ Finset.range 99999,
        1 / ct.nm ^ 3 * (10000 / 99999 *
          (ellipsoid_f a b c (qgrid j) + ellipsoid_f a b c (qgrid (j + 1))) / 2) := by
    apply Finset.sum_congr rfl
    intro j _
    rw [scale_pointwise ct.nm a b c (10000 * (j : ℝ) / 99999) (le_of_lt h),
      scale_pointwise ct.nm a b c (10000 * ((j : ℕ) + 1 : ℝ) / 99999) (le_of_lt h)]
    rw [show ellipsoid_f a b c (10000 * (j : ℝ) / 99999) =
        ellipsoid_f a b c (qgrid j) by rw [qgrid],
      show ellipsoid_f a b c (10000 * ((j : ℕ) + 1 : ℝ) / 99999) =
        ellipsoid_f a b c (qgrid (j + 1)) by rw [qgrid]; push_cast; ring_nf]
    have hnm : ct.nm ≠ 0 := ne_of_gt h
    field_simp
    ring
  push_cast
  push_cast at hsum
  rw [hsum, ← Finset.mul_sum]
  have hnm : ct.nm ≠ 0 := ne_of_gt h
  field_simp
  ring

/-- C8: for the ellipsoid with semi-axes `44 nm, 20 nm, 20 nm` (for any
positive length-unit scale `nm`), the three depolarization factors
computed by the fixed-grid trapezoidal quadrature of
`sparse_ellipsoid_polarizability` sum to within `0.02` of `1`. -/
theorem claim_C8_depolarization_sum (ct : Consts) (h : 0 < ct.nm) :
    |ellipsoid_L_i ct (44 * ct.nm) (20 * ct.nm) (20 * ct.nm) +
      ellipsoid_L_i ct (20 * ct.nm) (20 * ct.nm) (44 * ct.nm) +
      ellipsoid_L_i ct (20 * ct.nm) (44 * ct.nm) (20 * ct.nm) - 1| ≤ 0.02 := by
  rw [ellipsoid_L_i_scale ct h, ellipsoid_L_i_scale ct h,
    ellipsoid_L_i_scale ct h]
  exact L_sum_unit_bound

/-- Witness for `claim_C8_depolarization_sum` at unit length scale. -/
theorem claim_C8_depolarization_sum_witness :
    0 < ctOne.nm ∧
    |ellipsoid_L_i ctOne (44 * ctOne.nm) (20 * ctOne.nm) (20 * ctOne.nm) +
      ellipsoid_L_i ctOne (20 * ctOne.nm) (20 * ctOne.nm) (44 * ctOne.nm) +
      ellipsoid_L_i ctOne (20 * ctOne.nm) (44 * ctOne.nm) (20 * ctOne.nm) -
      1| ≤ 0.02 :=
  ⟨by norm_num [ctOne], claim_C8_depolarization_sum ctOne (by norm_num [ctOne])⟩

end CoupledDipoles
